import Mathlib

/-!
# Verification of the buscamat semantic-retrieval core

A shallow embedding of the repository's retrieval core
(`data_handler.py`, `embeddings_engine.py`, `search_engine.py`,
`batch_processor.py`) together with theorems settling the frozen claims
about it.

Modelling conventions:
* machine floats become `ℚ` (exact rationals), so score comparisons are exact;
* fallible Python code becomes `Except String`;
* the file system becomes an explicit association list from paths to
  artifacts, and persistence side effects become an explicit trace of
  `FsOp` events;
* the sentence-transformer model is an abstract encoding function
  `String → Vec` carried inside the engine state, mirroring
  `self.model` in `EmbeddingsEngine`.
-/

set_option maxRecDepth 8000

namespace Buscamat

/-- A dense embedding vector (a row of the numpy float matrix). -/
abbrev Vec := List ℚ

/-- Squared L2 distance between two vectors, the metric FAISS uses for
`IndexHNSWFlat(dimension, M)` built with the default `METRIC_L2`
(no metric argument is passed at `embeddings_engine.py:150`). -/
def sqL2 (u v : Vec) : ℚ := (List.zipWith (fun a b => (a - b) * (a - b)) u v).sum

/-- The sentinel distance FAISS leaves in unfilled result slots for an
L2 index: `FLT_MAX`.  Modelled as a rational far larger than any distance
arising in the concrete corpora considered here. -/
def FLT_MAX : ℚ := 2 ^ 128

/-- Comparison of scored candidates by distance, used to model the
ascending-distance order of FAISS L2 search results. -/
def distLE (a b : ℚ × Int) : Prop := a.1 ≤ b.1

instance : DecidableRel distLE := fun a b => inferInstanceAs (Decidable (a.1 ≤ b.1))

instance : IsTotal (ℚ × Int) distLE := ⟨fun a b => le_total a.1 b.1⟩

instance : IsTrans (ℚ × Int) distLE := ⟨fun _ _ _ h h' => le_trans h h'⟩

/-- Model of a `faiss.IndexHNSWFlat` object as created in
`EmbeddingsEngine.create_hnsw_index`: the flat vector storage plus the
HNSW construction/search parameters set there. -/
structure IndexHNSWFlat where
  d : ℕ
  hnsw_m : ℕ
  ef_construction : ℕ
  ef : ℕ
  vectors : List Vec

/-- Model of `faiss.Index.search` for a single query against an
`IndexHNSWFlat` with the default `METRIC_L2`, per the FAISS contract:
the result has exactly `k` slots, holding up to `k` hits as
`(squared-L2-distance, label)` pairs ordered by ascending distance, and
any unfilled slot holds `(FLT_MAX, -1)`.  The graph approximation only
affects which neighbours are found, never the ordering or padding
discipline; the model returns the exact nearest set, ties broken by
lower label first (stable sort). -/
def faissSearch (xb : List Vec) (q : Vec) (k : ℕ) : List (ℚ × Int) :=
  let scored := xb.enum.map fun p => (sqL2 q p.2, (p.1 : Int))
  let sorted := List.insertionSort distLE scored
  let taken := sorted.take k
  taken ++ List.replicate (k - taken.length) (FLT_MAX, -1)

unseal Rat.add Rat.sub Rat.mul

/-- A persisted artifact: either a saved embedding matrix (`np.save` /
`np.load` at `embeddings_engine.py:77,122`) or a pickled FAISS index
(`pickle.dump` / `pickle.load` at `embeddings_engine.py:134,165`). -/
inductive Artifact where
  | mat (m : List Vec)
  | idx (i : IndexHNSWFlat)

/-- The file system visible to the engine: an association list from paths
to artifacts, newest entry first. -/
abbrev FS := List (String × Artifact)

/-- Model of `os.path.exists`. -/
def FS.pathExists (fs : FS) (p : String) : Bool := fs.any fun e => e.1 == p

/-- Reading the artifact stored at a path (most recent write wins). -/
def FS.readAt (fs : FS) (p : String) : Option Artifact :=
  (fs.find? fun e => e.1 == p).map Prod.snd

/-- Writing an artifact at a path. -/
def FS.writeAt (fs : FS) (p : String) (a : Artifact) : FS := (p, a) :: fs

/-- File-system side effects performed by the persistence code, recorded
as an explicit trace so that the persistence discipline can be stated.
`write` is a plain in-place write to its path (what `np.save` and
`open(path, 'wb')` + `pickle.dump` do); `writeTmp` and `rename` are the
constructors a write-then-atomic-rename discipline would use — the
source never emits them. -/
inductive FsOp where
  | write (path : String) (a : Artifact)
  | writeTmp (path : String) (a : Artifact)
  | rename (src dst : String)

/-- Coarse computation/load events of a build step, used to state the
cache-short-circuit property. -/
inductive BuildEvent where
  | computeEmb | saveEmb | loadEmb | computeIdx | saveIdx | loadIdx
deriving DecidableEq

/-- Model of `EmbeddingsEngine.__init__` state: configuration plus the
three mutable handles `model`, `embeddings`, `index`.  The loaded
sentence-transformer model is abstracted as an encoding function from a
text to its (already normalized) vector. -/
structure EmbeddingsEngine where
  model_name : String
  embeddings_path : String
  index_path : String
  hnsw_m : ℕ
  hnsw_ef_construction : ℕ
  hnsw_ef_search : ℕ
  n_workers : ℕ
  batch_size : ℕ
  model : Option (String → Vec)
  embeddings : Option (List Vec)
  index : Option IndexHNSWFlat

/-- Model of `model.encode` on a batch of texts
(`EmbeddingsEngine._generate_embeddings_batch`): the sentence
transformer encodes each text of the batch independently. -/
def generateEmbeddingsBatch (encode : String → Vec) (texts_batch : List String) : List Vec :=
  texts_batch.map encode

/-- Model of the Python slicing loop
`[texts[i:i + batch_size] for i in range(0, len(texts), batch_size)]`,
written with an explicit fuel argument (the list length) so that the
definition is structurally recursive and evaluates inside the kernel.
For `bs = 0` Python's `range` raises `ValueError`; that case is modelled
as the empty batch list, which makes the caller fail (see
`generate_embeddings`). -/
def chunksFuel (bs : ℕ) : ℕ → List String → List (List String)
  | 0, _ => []
  | _, [] => []
  | fuel + 1, x :: xs =>
    if bs = 0 then [] else (x :: xs).take bs :: chunksFuel bs fuel (xs.drop (bs - 1))

/-- The batches dispatched to the worker pool, in dispatch order. -/
def chunks (bs : ℕ) (l : List String) : List (List String) := chunksFuel bs l.length l

/-- Result of a build step: the updated engine, the updated file system,
the trace of file-system operations, and the compute/load events. -/
structure GenResult where
  engine : EmbeddingsEngine
  fs : FS
  ops : List FsOp
  events : List BuildEvent

/-- Model of `EmbeddingsEngine.generate_embeddings`
(`embeddings_engine.py:67-123`).

Cache branch: if the embeddings file exists and `force_rebuild` is
false, `np.load` it and return.  Otherwise the descriptions are given
the `"passage: "` E5 prefix, split into `batch_size` batches, each batch
encoded by a worker (`ThreadPoolExecutor`), and the results collected by
iterating the `futures` list — i.e. in dispatch order, independent of
completion order — then concatenated with `np.vstack` and saved with a
plain `np.save` to `embeddings_path`.  `np.vstack` on an empty list
raises, hence the error branch for an empty batch list. -/
def EmbeddingsEngine.generate_embeddings (eng : EmbeddingsEngine) (fs : FS)
    (descriptions : List String) (force_rebuild : Bool) : Except String GenResult :=
  if !force_rebuild && fs.pathExists eng.embeddings_path then
    match fs.readAt eng.embeddings_path with
    | some (.mat m) => .ok ⟨{ eng with embeddings := some m }, fs, [], [.loadEmb]⟩
    | _ => .error "np.load: not a valid embeddings file"
  else
    match eng.model with
    | none => .error "AttributeError: NoneType object has no attribute encode"
    | some encode =>
      let texts := descriptions.map fun desc => "passage: " ++ desc
      let batches := chunks eng.batch_size texts
      let embeddings_list := batches.map fun batch => generateEmbeddingsBatch encode batch
      if embeddings_list.isEmpty then
        .error "ValueError: need at least one array to concatenate"
      else
        let embs := embeddings_list.flatten
        .ok ⟨{ eng with embeddings := some embs },
             fs.writeAt eng.embeddings_path (.mat embs),
             [.write eng.embeddings_path (.mat embs)],
             [.computeEmb, .saveEmb]⟩

/-- The index object built by the rebuild branch of
`create_hnsw_index`: `faiss.IndexHNSWFlat(dimension, hnsw_m)` with
`ef_construction` and `ef` set, holding all embeddings
(`embeddings_engine.py:149-157`). -/
def builtIndex (eng : EmbeddingsEngine) (embs : List Vec) : IndexHNSWFlat :=
  { d := (embs.headD []).length
    hnsw_m := eng.hnsw_m
    ef_construction := eng.hnsw_ef_construction
    ef := eng.hnsw_ef_search
    vectors := embs }

/-- Model of `EmbeddingsEngine.create_hnsw_index`
(`embeddings_engine.py:125-166`).

Cache branch: if the index file exists and `force_rebuild` is false,
`pickle.load` it and return.  Otherwise fail when no embeddings were
generated, else build `faiss.IndexHNSWFlat(dimension, hnsw_m)` (default
metric: L2), add all embeddings, set `ef`, and persist with a plain
`pickle.dump` to `index_path`. -/
def EmbeddingsEngine.create_hnsw_index (eng : EmbeddingsEngine) (fs : FS)
    (force_rebuild : Bool) : Except String GenResult :=
  if !force_rebuild && fs.pathExists eng.index_path then
    match fs.readAt eng.index_path with
    | some (.idx i) => .ok ⟨{ eng with index := some i }, fs, [], [.loadIdx]⟩
    | _ => .error "pickle.load: not a valid index file"
  else
    match eng.embeddings with
    | none => .error "Embeddings não foram gerados. Execute generate_embeddings() primeiro."
    | some embs =>
      .ok ⟨{ eng with index := some (builtIndex eng embs) },
           fs.writeAt eng.index_path (.idx (builtIndex eng embs)),
           [.write eng.index_path (.idx (builtIndex eng embs))],
           [.computeIdx, .saveIdx]⟩

/-- Model of `EmbeddingsEngine.generate_query_embedding`
(`embeddings_engine.py:168-191`): the query gets the `"query: "` E5
prefix and is encoded by the same model. -/
def EmbeddingsEngine.generate_query_embedding (eng : EmbeddingsEngine)
    (query : String) : Except String Vec :=
  match eng.model with
  | none => .error "Modelo não carregado. Execute load_model() primeiro."
  | some encode => .ok (encode ("query: " ++ query))

/-- Model of `EmbeddingsEngine.search` (`embeddings_engine.py:193-211`)
for a single query row: fails if no index exists, otherwise runs the
FAISS search and returns the `(scores, indices)` arrays. -/
def EmbeddingsEngine.search (eng : EmbeddingsEngine) (query_embedding : Vec)
    (top_k : ℕ) : Except String (List ℚ × List Int) :=
  match eng.index with
  | none => .error "Índice não criado. Execute create_hnsw_index() primeiro."
  | some idx =>
    let res := faissSearch idx.vectors query_embedding top_k
    .ok (res.map Prod.fst, res.map Prod.snd)

/-- One row of the corpus DataFrame.  The description cell is singled
out (`none` models a null/NaN cell); `codigo` models the
`'Código do Item'` cell and `outros` the remaining columns, which pass
through opaquely. -/
structure Row where
  codigo : String
  desc : Option String
  outros : List (String × String)
deriving DecidableEq

/-- A pandas DataFrame as the corpus loader sees it: column names plus
rows. -/
structure DF where
  cols : List String
  rows : List Row
deriving DecidableEq

/-- The ordered candidate names for the description column
(`data_handler.py:60-61`). -/
def desc_columns : List String :=
  ["Descrição do Item", "Descricao do Item", "Descrição", "Descricao", "Description"]

/-- The `for col in desc_columns: if col in self.df.columns` probe
(`data_handler.py:64-67`). -/
def findDescCol (cols : List String) : Option String :=
  desc_columns.find? fun c => cols.contains c

/-- Model of `DataHandler._clean_data` (`data_handler.py:57-86`):
locate the description column (raising when absent), rename it to the
canonical `'Descrição do Item'`, drop rows whose description is null
(`dropna`), cast cells to `str` (identity on string cells), and drop
rows whose raw string length is less than 10 (`str.len() >= 10`).  The
before/after count is only logged; an empty result is returned as-is. -/
def clean_data (df : DF) : Except String DF :=
  match findDescCol df.cols with
  | none => .error "Coluna de descrição não encontrada no CSV"
  | some desc_col =>
    let cols2 := df.cols.map fun c => if c = desc_col then "Descrição do Item" else c
    let kept := df.rows.filter fun r => r.desc.isSome
    let kept2 := kept.filter fun r => 10 ≤ (r.desc.getD "").length
    .ok { cols := cols2, rows := kept2 }

/-- Outcome of one `pd.read_csv(csv_path, encoding=enc)` attempt: either
a parsed DataFrame, a `UnicodeDecodeError`, or any other exception. -/
inductive ReadErr where
  | unicodeDecodeError
  | otherError (msg : String)

/-- The ordered encoding candidates (`data_handler.py:32`). -/
def encodings : List String := ["utf-8", "latin-1", "cp1252", "iso-8859-1"]

/-- What the `for encoding in encodings` loop of `DataHandler.load_data`
(`data_handler.py:34-43`) does: the first component records which
encodings were actually attempted, in order; the second the loop's
outcome.  `except UnicodeDecodeError: continue` moves to the next
candidate; a successful read breaks; any other exception is re-raised
(`except Exception: raise`) without attempting further candidates. -/
inductive LoadOutcome where
  | loaded (df : DF)
  | raised (msg : String)
  | exhausted
deriving DecidableEq

/-- The encoding-fallback loop, returning the attempted encodings and
the outcome. -/
def tryEncodings (attempt : String → Except ReadErr DF) :
    List String → List String × LoadOutcome
  | [] => ([], .exhausted)
  | enc :: rest =>
    match attempt enc with
    | .ok df => ([enc], .loaded df)
    | .error .unicodeDecodeError =>
      let r := tryEncodings attempt rest
      (enc :: r.1, r.2)
    | .error (.otherError msg) => ([enc], .raised msg)

/-- Model of `DataHandler.load_data` (`data_handler.py:20-55`): run the
encoding-fallback loop over the fixed candidate list; if every candidate
hit a `UnicodeDecodeError` the DataFrame is still `None` and a
`ValueError` is raised; otherwise `_clean_data` runs on the parsed
DataFrame and its result is returned. -/
def load_data (attempt : String → Except ReadErr DF) : Except String DF :=
  match (tryEncodings attempt encodings).2 with
  | .loaded df => clean_data df
  | .raised msg => .error msg
  | .exhausted => .error "Não foi possível carregar o CSV com nenhum encoding testado"

/-- Model of a single positional lookup of `df.iloc` on a list of
integer positions (pandas semantics): positions in `[0, n)` select that
row, negative positions in `[-n, 0)` silently select from the end
(`-1` is the last row), and anything else raises
`IndexError: positional indexers are out-of-bounds`. -/
def ilocOne (rows : List Row) (i : Int) : Except String Row :=
  if h : 0 ≤ i ∧ i < (rows.length : Int) then
    .ok (rows.get ⟨i.toNat, by omega⟩)
  else if h2 : -(rows.length : Int) ≤ i ∧ i < 0 then
    .ok (rows.get ⟨((rows.length : Int) + i).toNat, by omega⟩)
  else
    .error "IndexError: positional indexers are out-of-bounds"

/-- Model of `df.iloc[indices]` for a list of positions. -/
def iloc (rows : List Row) (idxs : List Int) : Except String (List Row) :=
  idxs.mapM (ilocOne rows)

/-- One row of the result DataFrame built by `SearchEngine.search`: the
dereferenced corpus record with the similarity score and the original
query attached (`search_engine.py:52-55`).  The wall-clock
`Timestamp_Busca` column and the purely cosmetic column reordering are
not modelled. -/
structure SearchResultRow where
  record : Row
  score_similaridade : ℚ
  query_original : String
deriving DecidableEq

/-- Model of `SearchEngine.search` (`search_engine.py:29-81`): encode
the query, search the HNSW index, then build the result rows as
`df.iloc[indices[0]]` with the score column assigned positionally from
`scores[0]`. -/
def SearchEngine.search (eng : EmbeddingsEngine) (query : String) (df : DF)
    (top_k : ℕ) : Except String (List SearchResultRow) := do
  let query_embedding ← eng.generate_query_embedding query
  let sr ← eng.search query_embedding top_k
  let recs ← iloc df.rows sr.2
  .ok ((recs.zip sr.1).map fun p => ⟨p.1, p.2, query⟩)

/-- Model of Python's `str.strip()` with no arguments: remove leading
and trailing whitespace. -/
def pyStrip (s : String) : String :=
  String.mk (((s.toList.dropWhile Char.isWhitespace).reverse.dropWhile
    Char.isWhitespace).reverse)

/-- One row of the consolidated batch DataFrame built by
`BatchProcessor.process_batch` (`batch_processor.py:54-92`).  Success
rows carry the search result's record; error rows carry the literal
placeholder cells the source writes (`'N/A'`, the error text). -/
structure BatchRow where
  item_original : String
  numero_item : ℕ
  status : String
  recomendacao_ia : String
  score_similaridade : ℚ
  codigo_do_item : String
  descricao_do_item : String
  ranking_item : ℕ
deriving DecidableEq

/-- The single error row appended when processing an item raises
(`batch_processor.py:81-90`). -/
def errorRow (item : String) (i : ℕ) (msg : String) : BatchRow :=
  { item_original := pyStrip item
    numero_item := i + 1
    status := "Erro"
    recomendacao_ia := "Erro: " ++ msg
    score_similaridade := 0
    codigo_do_item := "N/A"
    descricao_do_item := "Erro ao processar: " ++ msg
    ranking_item := 1 }

/-- The body of the `try:` block for one item
(`batch_processor.py:54-75`): search, optionally generate the AI
recommendation (both may raise), then build one success row per search
result with `Status = 'Sucesso'` and `Ranking_Item = 1..len(results)`.
The search and the AI recommender are the collaborators
`self.search_engine.search` and
`self.ai_recommender.generate_recommendation`, abstracted as fallible
functions. -/
def processItemTry (resolve : String → Except String (List SearchResultRow))
    (aiRecommend : String → List SearchResultRow → Except String String)
    (use_ai : Bool) (i : ℕ) (item : String) : Except String (List BatchRow) :=
  match resolve (pyStrip item) with
  | .error e => .error e
  | .ok results =>
    match (if use_ai then aiRecommend (pyStrip item) results
           else .ok "IA desabilitada") with
    | .error e => .error e
    | .ok recommendation =>
      .ok ((results.zip (List.range results.length)).map fun p =>
        { item_original := pyStrip item
          numero_item := i + 1
          status := "Sucesso"
          recomendacao_ia := recommendation
          score_similaridade := p.1.score_similaridade
          codigo_do_item := p.1.record.codigo
          descricao_do_item := (p.1.record.desc).getD ""
          ranking_item := p.2 + 1 })

/-- One iteration of the batch loop: the `try`/`except` around one item
— a raising item contributes a single error row, it never aborts the
loop (`batch_processor.py:77-92`). -/
def processItem (resolve : String → Except String (List SearchResultRow))
    (aiRecommend : String → List SearchResultRow → Except String String)
    (use_ai : Bool) (i : ℕ) (item : String) : List BatchRow :=
  match processItemTry resolve aiRecommend use_ai i item with
  | .ok rows => rows
  | .error msg => [errorRow item i msg]

/-- Model of `BatchProcessor.process_batch`
(`batch_processor.py:29-116`), at the granularity of per-item result
groups (`batch_results` before `pd.concat`): one group per input item,
in input order. -/
def BatchProcessor.process_batch (resolve : String → Except String (List SearchResultRow))
    (aiRecommend : String → List SearchResultRow → Except String String)
    (use_ai : Bool) (item_list : List String) : List (List BatchRow) :=
  item_list.enum.map fun p => processItem resolve aiRecommend use_ai p.1 p.2

/-- The final consolidated DataFrame (`pd.concat(batch_results)`). -/
def BatchProcessor.process_batch_df (resolve : String → Except String (List SearchResultRow))
    (aiRecommend : String → List SearchResultRow → Except String String)
    (use_ai : Bool) (item_list : List String) : List BatchRow :=
  (BatchProcessor.process_batch resolve aiRecommend use_ai item_list).flatten

/-- Claim-side predicate (Bool so that concrete counterexamples can be
settled by `decide`): a score sequence is non-increasing by position. -/
def nonIncreasingB : List ℚ → Bool
  | [] => true
  | [_] => true
  | a :: b :: t => decide (b ≤ a) && nonIncreasingB (b :: t)

/-- Claim-side predicate: the operation trace performs a plain in-place
write at the given path. -/
def directWriteTo (path : String) (ops : List FsOp) : Bool :=
  ops.any fun op => match op with | .write p _ => p == path | _ => false

/-- Claim-side predicate: the operation trace publishes data at the
given path through a rename. -/
def publishesByRename (path : String) (ops : List FsOp) : Bool :=
  ops.any fun op => match op with | .rename _ dst => dst == path | _ => false

/-- Claim-side formalization of the write-then-atomic-rename
discipline: the final artifact path is never written in place, and is
published by an atomic rename. -/
def writeThenAtomicRename (path : String) (ops : List FsOp) : Prop :=
  directWriteTo path ops = false ∧ publishesByRename path ops = true

/-- Spec-side definition (follows the spec's words for claim comparison,
not the source): the length of a description after trimming surrounding
whitespace, the quantity the spec's ≥ 10 requirement is stated on. -/
def specTrimmedLength (s : String) : ℕ := (pyStrip s).length

/-! ## Structural lemmas about the FAISS search model -/

lemma faissSearch_length (xb : List Vec) (q : Vec) (k : ℕ) :
    (faissSearch xb q k).length = k := by
  unfold faissSearch
  simp only [List.length_append, List.length_take, List.length_replicate]
  have hlen : (List.insertionSort distLE (xb.enum.map
      fun p => (sqL2 q p.2, (p.1 : Int)))).length =
      (xb.enum.map fun p => (sqL2 q p.2, (p.1 : Int))).length :=
    (List.perm_insertionSort distLE _).length_eq
  omega

lemma faissSearch_eq_take (xb : List Vec) (q : Vec) (k : ℕ)
    (hk : k ≤ xb.length) :
    faissSearch xb q k =
      (List.insertionSort distLE (xb.enum.map
        fun p => (sqL2 q p.2, (p.1 : Int)))).take k := by
  unfold faissSearch
  have hlen : (List.insertionSort distLE (xb.enum.map
      fun p => (sqL2 q p.2, (p.1 : Int)))).length =
      (xb.enum.map fun p => (sqL2 q p.2, (p.1 : Int))).length :=
    (List.perm_insertionSort distLE _).length_eq
  have htl : ((List.insertionSort distLE (xb.enum.map
      fun p => (sqL2 q p.2, (p.1 : Int)))).take k).length = k := by
    simp only [List.length_take, hlen, List.length_map, List.enum_length]
    omega
  simp only [htl, Nat.sub_self, List.replicate_zero, List.append_nil]

lemma faissSearch_sorted (xb : List Vec) (q : Vec) (k : ℕ)
    (hk : k ≤ xb.length) :
    (faissSearch xb q k).Pairwise distLE := by
  rw [faissSearch_eq_take xb q k hk]
  exact ((List.sorted_insertionSort distLE _).sublist (List.take_sublist _ _))

lemma faissSearch_mem (xb : List Vec) (q : Vec) (k : ℕ) (p : ℚ × Int)
    (hk : k ≤ xb.length) (hp : p ∈ faissSearch xb q k) :
    ∃ i : ℕ, i < xb.length ∧ p.2 = (i : Int) ∧ p.1 = sqL2 q (xb.getD i []) := by
  rw [faissSearch_eq_take xb q k hk] at hp
  have hp2 : p ∈ List.insertionSort distLE (xb.enum.map
      fun p => (sqL2 q p.2, (p.1 : Int))) := (List.take_sublist _ _).mem hp
  have hp3 : p ∈ xb.enum.map fun p => (sqL2 q p.2, (p.1 : Int)) :=
    (List.perm_insertionSort distLE _).mem_iff.mp hp2
  obtain ⟨⟨i, v⟩, hmem, heq⟩ := List.mem_map.mp hp3
  have hiv : xb[i]? = some v := List.mk_mem_enum_iff_getElem?.mp hmem
  have hi : i < xb.length := by
    by_contra hcon
    rw [List.getElem?_eq_none (by omega)] at hiv
    exact Option.noConfusion hiv
  refine ⟨i, hi, ?_, ?_⟩
  · rw [← heq]
  · rw [← heq]
    have : xb.getD i [] = v := by
      rw [List.getD_eq_getElem?_getD, hiv]
      rfl
    rw [this]

lemma faissSearch_getElem_pad (xb : List Vec) (q : Vec) (k j : ℕ)
    (h1 : xb.length ≤ j) (h2 : j < k) :
    (faissSearch xb q k)[j]? = some (FLT_MAX, -1) := by
  unfold faissSearch
  have hlen : (List.insertionSort distLE (xb.enum.map
      fun p => (sqL2 q p.2, (p.1 : Int)))).length =
      (xb.enum.map fun p => (sqL2 q p.2, (p.1 : Int))).length :=
    (List.perm_insertionSort distLE _).length_eq
  have hslen : (List.insertionSort distLE (xb.enum.map
      fun p => (sqL2 q p.2, (p.1 : Int)))).length = xb.length := by
    simp only [hlen, List.length_map, List.enum_length]
  have htake : ((List.insertionSort distLE (xb.enum.map
      fun p => (sqL2 q p.2, (p.1 : Int)))).take k).length = min k xb.length := by
    simp only [List.length_take, hslen]
  rw [List.getElem?_append_right (by omega)]
  rw [List.getElem?_replicate]
  simp only [htake]
  have : j - min k xb.length < k - min k xb.length := by omega
  simp only [this, if_pos]

lemma faissSearch_getElem_valid (xb : List Vec) (q : Vec) (k j : ℕ)
    (hj : j < min k xb.length) :
    ∃ i : ℕ, i < xb.length ∧
      (faissSearch xb q k)[j]? = some (sqL2 q (xb.getD i []), (i : Int)) := by
  have hlen : (List.insertionSort distLE (xb.enum.map
      fun p => (sqL2 q p.2, (p.1 : Int)))).length =
      (xb.enum.map fun p => (sqL2 q p.2, (p.1 : Int))).length :=
    (List.perm_insertionSort distLE _).length_eq
  have hslen : (List.insertionSort distLE (xb.enum.map
      fun p => (sqL2 q p.2, (p.1 : Int)))).length = xb.length := by
    simp only [hlen, List.length_map, List.enum_length]
  have htake : ((List.insertionSort distLE (xb.enum.map
      fun p => (sqL2 q p.2, (p.1 : Int)))).take k).length = min k xb.length := by
    simp only [List.length_take, hslen]
  unfold faissSearch
  rw [List.getElem?_append_left (by omega)]
  have hjt : j < ((List.insertionSort distLE (xb.enum.map
      fun p => (sqL2 q p.2, (p.1 : Int)))).take k).length := by omega
  set taken := (List.insertionSort distLE (xb.enum.map
      fun p => (sqL2 q p.2, (p.1 : Int)))).take k with hta
  have hsome : taken[j]? = some taken[j] := List.getElem?_eq_getElem hjt
  have hmem : taken[j] ∈ taken := List.getElem_mem hjt
  have hp2 : taken[j] ∈ List.insertionSort distLE (xb.enum.map
      fun p => (sqL2 q p.2, (p.1 : Int))) := (List.take_sublist _ _).mem hmem
  have hp3 : taken[j] ∈ xb.enum.map fun p => (sqL2 q p.2, (p.1 : Int)) :=
    (List.perm_insertionSort distLE _).mem_iff.mp hp2
  obtain ⟨⟨i, v⟩, hmemi, heq⟩ := List.mem_map.mp hp3
  have hiv : xb[i]? = some v := List.mk_mem_enum_iff_getElem?.mp hmemi
  have hi : i < xb.length := by
    by_contra hcon
    rw [List.getElem?_eq_none (by omega)] at hiv
    exact Option.noConfusion hiv
  refine ⟨i, hi, ?_⟩
  rw [hsome]
  have hv : xb.getD i [] = v := by
    rw [List.getD_eq_getElem?_getD, hiv]
    rfl
  rw [hv, heq]

/-! ## Concrete instances used by counterexamples and witnesses -/

/-- An engine configured with the repository's defaults
(`config_manager.py:31-43`), before any artifact is built. -/
def engBase : EmbeddingsEngine :=
  { model_name := "intfloat/e5-base-v2"
    embeddings_path := "catmat_embeddings.npy"
    index_path := "catmat_hnsw_index.pkl"
    hnsw_m := 32
    hnsw_ef_construction := 200
    hnsw_ef_search := 100
    n_workers := 8
    batch_size := 64
    model := none
    embeddings := none
    index := none }

/-- A two-vector index over distinct unit vectors. -/
def idxTwo : IndexHNSWFlat :=
  { d := 2, hnsw_m := 32, ef_construction := 200, ef := 100
    vectors := [[1, 0], [0, 1]] }

/-- A one-vector index. -/
def idxOne : IndexHNSWFlat :=
  { d := 2, hnsw_m := 32, ef_construction := 200, ef := 100
    vectors := [[1, 0]] }

/-- Engine holding the two-vector index. -/
def engTwo : EmbeddingsEngine := { engBase with index := some idxTwo }

/-- Engine holding the one-vector index. -/
def engOne : EmbeddingsEngine := { engBase with index := some idxOne }

/-! ## C1 -/

/-- C1, counterexample.  The claim says the resolver's scores are
non-increasing by position (higher score = closer match, inner-product
ranking).  On the index the code actually builds —
`faiss.IndexHNSWFlat(dimension, M)` with the default `METRIC_L2` — the
returned scores are squared L2 distances in ascending order: querying
`[1, 0]` against catalog vectors `[[1, 0], [0, 1]]` returns scores
`[0, 2]` (the closest match has the LOWEST score), which is not a
non-increasing sequence. -/
theorem C1_counterexample :
    engTwo.search [1, 0] 2 = .ok ([0, 2], [0, 1]) ∧
    nonIncreasingB [0, 2] = false := by
  constructor
  · rfl
  · decide

/-- C1 (amended): the resolver's search ranks catalog vectors by
squared L2 distance — the FAISS default metric for the index built in
`create_hnsw_index` — so a LOWER score means a closer match, every
returned `(score, ordinal)` pair in the unpadded range carries the
distance from the query to the catalog vector at that ordinal, and the
sequence of scores returned to the caller is non-DEcreasing by
position. -/
theorem C1_theorem (eng : EmbeddingsEngine) (idx : IndexHNSWFlat)
    (hidx : eng.index = some idx) (q : Vec) (k : ℕ)
    (hk : k ≤ idx.vectors.length) (scores : List ℚ) (ordinals : List Int)
    (hres : eng.search q k = .ok (scores, ordinals)) :
    scores.Pairwise (· ≤ ·) ∧
    ∀ p ∈ scores.zip ordinals, ∃ i : ℕ, i < idx.vectors.length ∧
      p.2 = (i : Int) ∧ p.1 = sqL2 q (idx.vectors.getD i []) := by
  unfold EmbeddingsEngine.search at hres
  rw [hidx] at hres
  simp only [Except.ok.injEq, Prod.mk.injEq] at hres
  obtain ⟨hs, ho⟩ := hres
  constructor
  · rw [← hs]
    have hp := faissSearch_sorted idx.vectors q k hk
    exact (List.pairwise_map).mpr hp
  · intro p hp
    rw [← hs, ← ho] at hp
    have hzip : (List.map Prod.fst (faissSearch idx.vectors q k)).zip
        (List.map Prod.snd (faissSearch idx.vectors q k)) =
        faissSearch idx.vectors q k := by
      rw [List.zip_map']
      simp
    rw [hzip] at hp
    exact faissSearch_mem idx.vectors q k p hk hp

/-- C1 witness: the amended theorem applied to the concrete two-vector
engine, query `[1, 0]`, `top_k = 2`. -/
theorem C1_theorem_witness :
    (([0, 2] : List ℚ).Pairwise (· ≤ ·)) ∧
    ∀ p ∈ (([0, 2] : List ℚ).zip ([0, 1] : List Int)),
      ∃ i : ℕ, i < idxTwo.vectors.length ∧
        p.2 = (i : Int) ∧ p.1 = sqL2 [1, 0] (idxTwo.vectors.getD i []) :=
  C1_theorem engTwo idxTwo rfl [1, 0] 2 (by decide) [0, 2] [0, 1] rfl

/-! ## C2 -/

/-- C2, counterexample.  The claim says resolving against an index of
`n` vectors returns exactly `min(top_k, n)` pairs, never padding with
invalid ordinals or sentinel scores.  FAISS actually always returns
`top_k` slots: querying an index holding 1 vector with `top_k = 2`
yields 2 pairs, the second being the padding pair
`(FLT_MAX, -1)` — an invalid ordinal with a sentinel score — and
`2 ≠ min 2 1`. -/
theorem C2_counterexample :
    engOne.search [1, 0] 2 = .ok ([0, FLT_MAX], [0, -1]) ∧
    ¬ (([0, FLT_MAX] : List ℚ).length = min 2 idxOne.vectors.length) := by
  constructor
  · rfl
  · decide

/-- C2 (amended): for every query and every `top_k`, the resolver
returns exactly `top_k` `(score, ordinal)` pairs without failing; the
first `min(top_k, n)` positions carry valid ordinals in `[0, n)`, and
every position from `n` up to `top_k` is padded with ordinal `-1` and
the sentinel score `FLT_MAX`. -/
theorem C2_theorem (eng : EmbeddingsEngine) (idx : IndexHNSWFlat)
    (hidx : eng.index = some idx) (q : Vec) (k : ℕ) :
    ∃ scores ordinals, eng.search q k = .ok (scores, ordinals) ∧
    scores.length = k ∧ ordinals.length = k ∧
    (∀ j, j < min k idx.vectors.length →
      ∃ i : ℕ, i < idx.vectors.length ∧ ordinals[j]? = some (i : Int)) ∧
    (∀ j, idx.vectors.length ≤ j → j < k →
      ordinals[j]? = some (-1) ∧ scores[j]? = some FLT_MAX) := by
  refine ⟨(faissSearch idx.vectors q k).map Prod.fst,
          (faissSearch idx.vectors q k).map Prod.snd, ?_, ?_⟩
  · unfold EmbeddingsEngine.search
    rw [hidx]
  refine ⟨?_, ?_, ?_, ?_⟩
  · rw [List.length_map, faissSearch_length]
  · rw [List.length_map, faissSearch_length]
  · intro j hj
    obtain ⟨i, hi, hget⟩ := faissSearch_getElem_valid idx.vectors q k j hj
    refine ⟨i, hi, ?_⟩
    rw [List.getElem?_map, hget]
    rfl
  · intro j h1 h2
    have hget := faissSearch_getElem_pad idx.vectors q k j h1 h2
    constructor
    · rw [List.getElem?_map, hget]
      rfl
    · rw [List.getElem?_map, hget]
      rfl

/-- C2 witness: the amended theorem applied to the one-vector engine
with `top_k = 2`. -/
theorem C2_theorem_witness :
    ∃ scores ordinals, engOne.search [1, 0] 2 = .ok (scores, ordinals) ∧
      scores.length = 2 ∧ ordinals.length = 2 ∧
      (∀ j, j < min 2 idxOne.vectors.length →
        ∃ i : ℕ, i < idxOne.vectors.length ∧ ordinals[j]? = some (i : Int)) ∧
      (∀ j, idxOne.vectors.length ≤ j → j < 2 →
        ordinals[j]? = some (-1) ∧ scores[j]? = some FLT_MAX) :=
  C2_theorem engOne idxOne rfl [1, 0] 2

/-! ## C3 -/

lemma chunksFuel_flatten (bs : ℕ) (hbs : bs ≠ 0) :
    ∀ (fuel : ℕ) (l : List String), l.length ≤ fuel →
      (chunksFuel bs fuel l).flatten = l := by
  intro fuel
  induction fuel with
  | zero =>
    intro l h
    have hl : l = [] := List.length_eq_zero.mp (Nat.le_zero.mp h)
    subst hl
    rfl
  | succ n ih =>
    intro l h
    cases l with
    | nil => rfl
    | cons x xs =>
      obtain ⟨m, hm⟩ := Nat.exists_eq_succ_of_ne_zero hbs
      subst hm
      simp only [chunksFuel, if_neg (Nat.succ_ne_zero m), List.flatten_cons,
        Nat.succ_sub_one]
      have hdrop : (x :: xs).drop (m + 1) = xs.drop m := rfl
      have hih : (chunksFuel (m + 1) n (xs.drop m)).flatten = xs.drop m := by
        apply ih
        simp only [List.length_drop, List.length_cons] at h ⊢
        omega
      rw [hih, ← hdrop, List.take_append_drop]

lemma chunks_flatten (bs : ℕ) (hbs : bs ≠ 0) (l : List String) :
    (chunks bs l).flatten = l :=
  chunksFuel_flatten bs hbs l.length l le_rfl

lemma chunks_ne_nil (bs : ℕ) (hbs : bs ≠ 0) (l : List String) (hl : l ≠ []) :
    chunks bs l ≠ [] := by
  intro hcon
  have := chunks_flatten bs hbs l
  rw [hcon] at this
  exact hl this.symm

lemma flatten_map_map (f : String → Vec) (L : List (List String)) :
    (L.map fun b => b.map f).flatten = L.flatten.map f := by
  induction L with
  | nil => rfl
  | cons b bs ih => simp only [List.map_cons, List.flatten_cons, List.map_append, ih]

/-- The embedding matrix computed by the rebuild branch of
`generate_embeddings`: scatter the prefixed texts into batches, encode
each batch, gather in dispatch order, concatenate. -/
def computedEmbeddings (eng : EmbeddingsEngine) (encode : String → Vec)
    (descriptions : List String) : List Vec :=
  ((chunks eng.batch_size (descriptions.map fun desc => "passage: " ++ desc)).map
    fun batch => generateEmbeddingsBatch encode batch).flatten

/-- Evaluation of the rebuild branch of `generate_embeddings` (forced,
batch list nonempty). -/
lemma generate_embeddings_force (eng : EmbeddingsEngine) (fs : FS)
    (descriptions : List String) (encode : String → Vec)
    (hm : eng.model = some encode)
    (hch : chunks eng.batch_size (descriptions.map fun desc => "passage: " ++ desc) ≠ []) :
    eng.generate_embeddings fs descriptions true =
      .ok ⟨{ eng with embeddings := some (computedEmbeddings eng encode descriptions) },
           fs.writeAt eng.embeddings_path (.mat (computedEmbeddings eng encode descriptions)),
           [.write eng.embeddings_path (.mat (computedEmbeddings eng encode descriptions))],
           [.computeEmb, .saveEmb]⟩ := by
  unfold EmbeddingsEngine.generate_embeddings
  simp only [Bool.not_true, Bool.false_and, Bool.false_eq_true, if_false, hm]
  rw [if_neg]
  · rfl
  · simp only [List.isEmpty_eq_true, List.map_eq_nil_iff]
    exact hch

/-- The computed embedding matrix is the corpus-ordered encoding of the
prefixed descriptions: out-of-order batch completion never reorders it
because results are gathered by iterating the `futures` list. -/
lemma computedEmbeddings_eq (eng : EmbeddingsEngine) (encode : String → Vec)
    (descriptions : List String) (hbs : eng.batch_size ≠ 0) :
    computedEmbeddings eng encode descriptions =
      descriptions.map fun d => encode ("passage: " ++ d) := by
  unfold computedEmbeddings generateEmbeddingsBatch
  rw [flatten_map_map, chunks_flatten eng.batch_size hbs, List.map_map]
  rfl

/-- C3: for every (nonempty) corpus, the embedding-generation step
produces exactly one vector per corpus record, and the vector at ordinal
`i` is the encoding of record `i`'s description carrying the
`"passage: "` document prefix.  Although batches go through a worker
pool, the collection loop iterates the `futures` list in dispatch order
(`for i, future in enumerate(futures)` at `embeddings_engine.py:103`),
so the concatenated sequence provably equals the corpus-ordered map of
the encoder over the prefixed descriptions. -/
theorem C3_theorem (eng : EmbeddingsEngine) (fs : FS)
    (descriptions : List String) (encode : String → Vec)
    (hm : eng.model = some encode) (hbs : eng.batch_size ≠ 0)
    (hne : descriptions ≠ []) :
    ∃ r : GenResult,
      eng.generate_embeddings fs descriptions true = .ok r ∧
      r.engine.embeddings =
        some (descriptions.map fun d => encode ("passage: " ++ d)) ∧
      (descriptions.map fun d => encode ("passage: " ++ d)).length =
        descriptions.length ∧
      ∀ j : ℕ, (descriptions.map fun d => encode ("passage: " ++ d))[j]? =
        (descriptions[j]?).map fun d => encode ("passage: " ++ d) := by
  have htexts : (descriptions.map fun desc => "passage: " ++ desc) ≠ [] := by
    intro hcon
    exact hne (List.map_eq_nil_iff.mp hcon)
  have hchunks : chunks eng.batch_size
      (descriptions.map fun desc => "passage: " ++ desc) ≠ [] :=
    chunks_ne_nil eng.batch_size hbs _ htexts
  refine ⟨_, generate_embeddings_force eng fs descriptions encode hm hchunks, ?_, ?_, ?_⟩
  · simp only [computedEmbeddings_eq eng encode descriptions hbs]
  · simp only [List.length_map]
  · intro j
    simp only [List.getElem?_map]

/-- C3 witness: concrete three-description corpus, default batch size. -/
theorem C3_theorem_witness :
    ∃ r : GenResult,
      ({ engBase with model := some fun s => [(s.length : ℚ)]
         } : EmbeddingsEngine).generate_embeddings []
          ["parafuso aço inox M6 20mm", "cabo elétrico 2.5mm",
           "tinta acrílica branca"] true = .ok r ∧
      r.engine.embeddings =
        some ((["parafuso aço inox M6 20mm", "cabo elétrico 2.5mm",
                "tinta acrílica branca"].map
          fun d => (fun s => [(s.length : ℚ)]) ("passage: " ++ d))) ∧
      ((["parafuso aço inox M6 20mm", "cabo elétrico 2.5mm",
         "tinta acrílica branca"].map
          fun d => (fun s => [(s.length : ℚ)]) ("passage: " ++ d))).length = 3 ∧
      ∀ j : ℕ, ((["parafuso aço inox M6 20mm", "cabo elétrico 2.5mm",
          "tinta acrílica branca"].map
            fun d => (fun s => [(s.length : ℚ)]) ("passage: " ++ d)))[j]? =
        ((["parafuso aço inox M6 20mm", "cabo elétrico 2.5mm",
           "tinta acrílica branca"] : List String)[j]?).map
          fun d => (fun s => [(s.length : ℚ)]) ("passage: " ++ d) :=
  C3_theorem { engBase with model := some fun s => [(s.length : ℚ)] } []
    ["parafuso aço inox M6 20mm", "cabo elétrico 2.5mm", "tinta acrílica branca"]
    (fun s => [(s.length : ℚ)]) rfl (by decide) (by decide)

/-! ## Branch-evaluation lemmas for the cache-or-rebuild steps -/

lemma FS.readAt_pathExists (fs : FS) (p : String) (a : Artifact)
    (h : fs.readAt p = some a) : fs.pathExists p = true := by
  unfold FS.readAt at h
  unfold FS.pathExists
  obtain ⟨e, hfind⟩ : ∃ e, fs.find? (fun e => e.1 == p) = some e := by
    cases hf : fs.find? fun e => e.1 == p with
    | none => rw [hf] at h; exact Option.noConfusion h
    | some e => exact ⟨e, rfl⟩
  rw [List.any_eq_true]
  have hpe := List.find?_some hfind
  exact ⟨e, List.mem_of_find?_eq_some hfind, hpe⟩

lemma FS.readAt_writeAt_self (fs : FS) (p : String) (a : Artifact) :
    (fs.writeAt p a).readAt p = some a := by
  unfold FS.writeAt FS.readAt
  simp [List.find?_cons]

/-- Cached branch of `generate_embeddings`: the file exists and holds an
embedding matrix, `force_rebuild` is false. -/
lemma generate_embeddings_cached (eng : EmbeddingsEngine) (fs : FS)
    (descriptions : List String) (m : List Vec)
    (hread : fs.readAt eng.embeddings_path = some (.mat m)) :
    eng.generate_embeddings fs descriptions false =
      .ok ⟨{ eng with embeddings := some m }, fs, [], [.loadEmb]⟩ := by
  unfold EmbeddingsEngine.generate_embeddings
  rw [if_pos (by simp [FS.readAt_pathExists fs _ _ hread])]
  rw [hread]

/-- Cache-miss branch of `generate_embeddings` with `force_rebuild`
false: no file at the configured path, so compute and persist. -/
lemma generate_embeddings_miss (eng : EmbeddingsEngine) (fs : FS)
    (descriptions : List String) (encode : String → Vec)
    (hm : eng.model = some encode)
    (hch : chunks eng.batch_size (descriptions.map fun desc => "passage: " ++ desc) ≠ [])
    (hex : fs.pathExists eng.embeddings_path = false) :
    eng.generate_embeddings fs descriptions false =
      .ok ⟨{ eng with embeddings := some (computedEmbeddings eng encode descriptions) },
           fs.writeAt eng.embeddings_path (.mat (computedEmbeddings eng encode descriptions)),
           [.write eng.embeddings_path (.mat (computedEmbeddings eng encode descriptions))],
           [.computeEmb, .saveEmb]⟩ := by
  unfold EmbeddingsEngine.generate_embeddings
  rw [if_neg (by simp [hex])]
  simp only [hm]
  rw [if_neg]
  · rfl
  · simp only [List.isEmpty_eq_true, List.map_eq_nil_iff]
    exact hch

/-- Cached branch of `create_hnsw_index`. -/
lemma create_hnsw_index_cached (eng : EmbeddingsEngine) (fs : FS)
    (i : IndexHNSWFlat) (hread : fs.readAt eng.index_path = some (.idx i)) :
    eng.create_hnsw_index fs false =
      .ok ⟨{ eng with index := some i }, fs, [], [.loadIdx]⟩ := by
  unfold EmbeddingsEngine.create_hnsw_index
  rw [if_pos (by simp [FS.readAt_pathExists fs _ _ hread])]
  rw [hread]

/-- Rebuild branch of `create_hnsw_index` (`force_rebuild` true,
embeddings present). -/
lemma create_hnsw_index_force (eng : EmbeddingsEngine) (fs : FS)
    (embs : List Vec) (he : eng.embeddings = some embs) :
    eng.create_hnsw_index fs true =
      .ok ⟨{ eng with index := some (builtIndex eng embs) },
           fs.writeAt eng.index_path (.idx (builtIndex eng embs)),
           [.write eng.index_path (.idx (builtIndex eng embs))],
           [.computeIdx, .saveIdx]⟩ := by
  unfold EmbeddingsEngine.create_hnsw_index
  simp only [Bool.not_true, Bool.false_and, Bool.false_eq_true, if_false, he]

/-- Cache-miss branch of `create_hnsw_index` with `force_rebuild`
false. -/
lemma create_hnsw_index_miss (eng : EmbeddingsEngine) (fs : FS)
    (embs : List Vec) (he : eng.embeddings = some embs)
    (hex : fs.pathExists eng.index_path = false) :
    eng.create_hnsw_index fs false =
      .ok ⟨{ eng with index := some (builtIndex eng embs) },
           fs.writeAt eng.index_path (.idx (builtIndex eng embs)),
           [.write eng.index_path (.idx (builtIndex eng embs))],
           [.computeIdx, .saveIdx]⟩ := by
  unfold EmbeddingsEngine.create_hnsw_index
  rw [if_neg (by simp [hex])]
  simp only [he]

/-! ## C4 -/

/-- Engine whose model and embeddings are already in place, used by the
persistence counterexample. -/
def engC4 : EmbeddingsEngine :=
  { engBase with model := some fun _ => [1], embeddings := some [[1]] }

/-- C4, counterexample.  The claim says both persisted artifacts are
written with a write-then-atomic-rename discipline.  A concrete forced
rebuild of each artifact shows the persistence trace is a single plain
in-place `write` to the final path — `np.save(self.embeddings_path, …)`
and `open(self.index_path, 'wb')` + `pickle.dump` — with no temporary
file and no rename, so the discipline does not hold for either
artifact. -/
theorem C4_counterexample :
    engC4.generate_embeddings [] ["parafuso aço inox M6 20mm"] true =
      .ok ⟨{ engC4 with embeddings := some [[1]] },
           [("catmat_embeddings.npy", .mat [[1]])],
           [.write "catmat_embeddings.npy" (.mat [[1]])],
           [.computeEmb, .saveEmb]⟩ ∧
    ¬ writeThenAtomicRename "catmat_embeddings.npy"
        [.write "catmat_embeddings.npy" (.mat [[1]])] ∧
    engC4.create_hnsw_index [] true =
      .ok ⟨{ engC4 with index := some (builtIndex engC4 [[1]]) },
           [("catmat_hnsw_index.pkl", .idx (builtIndex engC4 [[1]]))],
           [.write "catmat_hnsw_index.pkl" (.idx (builtIndex engC4 [[1]]))],
           [.computeIdx, .saveIdx]⟩ ∧
    ¬ writeThenAtomicRename "catmat_hnsw_index.pkl"
        [.write "catmat_hnsw_index.pkl" (.idx (builtIndex engC4 [[1]]))] := by
  refine ⟨rfl, ?_, rfl, ?_⟩
  · intro hcon
    simp only [writeThenAtomicRename, directWriteTo] at hcon
    exact absurd hcon.1 (by decide)
  · intro hcon
    simp only [writeThenAtomicRename, directWriteTo] at hcon
    exact absurd hcon.1 (by decide)

/-- C4 (amended): both persistence steps write their artifact with a
single plain in-place write to the final configured path — no temporary
file, no atomic rename — so a rebuild that dies mid-write can leave a
corrupted file at the artifact path. -/
theorem C4_theorem (eng : EmbeddingsEngine) (fs : FS) (descriptions : List String) :
    (∀ encode, eng.model = some encode →
      chunks eng.batch_size (descriptions.map fun desc => "passage: " ++ desc) ≠ [] →
      ∀ r, eng.generate_embeddings fs descriptions true = .ok r →
        directWriteTo eng.embeddings_path r.ops = true ∧
        publishesByRename eng.embeddings_path r.ops = false ∧
        ¬ writeThenAtomicRename eng.embeddings_path r.ops) ∧
    (∀ embs, eng.embeddings = some embs →
      ∀ r, eng.create_hnsw_index fs true = .ok r →
        directWriteTo eng.index_path r.ops = true ∧
        publishesByRename eng.index_path r.ops = false ∧
        ¬ writeThenAtomicRename eng.index_path r.ops) := by
  constructor
  · intro encode hm hch r hr
    rw [generate_embeddings_force eng fs descriptions encode hm hch] at hr
    injection hr with h
    subst h
    refine ⟨by simp [directWriteTo], by simp [publishesByRename], ?_⟩
    intro hcon
    obtain ⟨h1, _⟩ := hcon
    simp [directWriteTo] at h1
  · intro embs he r hr
    rw [create_hnsw_index_force eng fs embs he] at hr
    injection hr with h
    subst h
    refine ⟨by simp [directWriteTo], by simp [publishesByRename], ?_⟩
    intro hcon
    obtain ⟨h1, _⟩ := hcon
    simp [directWriteTo] at h1

/-- C4 witness: the amended theorem applied to the concrete engine and
an empty file system. -/
theorem C4_theorem_witness :
    directWriteTo "catmat_embeddings.npy"
      (GenResult.ops ⟨{ engC4 with embeddings := some [[1]] },
        [("catmat_embeddings.npy", .mat [[1]])],
        [.write "catmat_embeddings.npy" (.mat [[1]])],
        [.computeEmb, .saveEmb]⟩) = true ∧
    publishesByRename "catmat_embeddings.npy"
      (GenResult.ops ⟨{ engC4 with embeddings := some [[1]] },
        [("catmat_embeddings.npy", .mat [[1]])],
        [.write "catmat_embeddings.npy" (.mat [[1]])],
        [.computeEmb, .saveEmb]⟩) = false ∧
    ¬ writeThenAtomicRename "catmat_embeddings.npy"
      (GenResult.ops ⟨{ engC4 with embeddings := some [[1]] },
        [("catmat_embeddings.npy", .mat [[1]])],
        [.write "catmat_embeddings.npy" (.mat [[1]])],
        [.computeEmb, .saveEmb]⟩) :=
  (C4_theorem engC4 [] ["parafuso aço inox M6 20mm"]).1
    (fun _ => [1]) rfl (by decide) _ rfl

/-! ## C9 -/

/-- After any successful `generate_embeddings` call the configured
embeddings path holds an embedding matrix in the resulting file
system. -/
lemma generate_embeddings_ok_fs (eng : EmbeddingsEngine) (fs : FS)
    (descriptions : List String) (force : Bool) (r : GenResult)
    (h : eng.generate_embeddings fs descriptions force = .ok r) :
    r.engine.embeddings_path = eng.embeddings_path ∧
    ∃ m, r.fs.readAt eng.embeddings_path = some (.mat m) := by
  unfold EmbeddingsEngine.generate_embeddings at h
  split at h
  · split at h
    next m heq =>
      injection h with h'
      subst h'
      exact ⟨rfl, m, heq⟩
    next => exact Except.noConfusion h
  · split at h
    · exact Except.noConfusion h
    · dsimp only at h
      split at h
      · exact Except.noConfusion h
      · injection h with h'
        subst h'
        exact ⟨rfl, _, FS.readAt_writeAt_self fs _ _⟩

/-- After any successful `create_hnsw_index` call the configured index
path holds an index artifact in the resulting file system. -/
lemma create_hnsw_index_ok_fs (eng : EmbeddingsEngine) (fs : FS)
    (force : Bool) (r : GenResult)
    (h : eng.create_hnsw_index fs force = .ok r) :
    r.engine.index_path = eng.index_path ∧
    ∃ i, r.fs.readAt eng.index_path = some (.idx i) := by
  unfold EmbeddingsEngine.create_hnsw_index at h
  split at h
  · split at h
    next i heq =>
      injection h with h'
      subst h'
      exact ⟨rfl, i, heq⟩
    next => exact Except.noConfusion h
  · split at h
    · exact Except.noConfusion h
    · injection h with h'
      subst h'
      exact ⟨rfl, _, FS.readAt_writeAt_self fs _ _⟩

/-- C9: both cacheable artifacts follow the same cache-or-rebuild
policy.  If a file already exists at the configured path (holding the
right kind of artifact) and `force_rebuild` is false, the artifact is
loaded from it — no computation, no file-system change; if no file
exists, the artifact is computed, persisted at that path, and returned.
Consequently a second call with `force_rebuild = False` after any
successful call only loads: its event trace is exactly the load event,
with no compute event and no file-system operation. -/
theorem C9_theorem (eng : EmbeddingsEngine) (fs : FS) (descriptions : List String) :
    (∀ m, fs.readAt eng.embeddings_path = some (.mat m) →
      eng.generate_embeddings fs descriptions false =
        .ok ⟨{ eng with embeddings := some m }, fs, [], [.loadEmb]⟩) ∧
    (∀ encode, eng.model = some encode →
      fs.pathExists eng.embeddings_path = false →
      chunks eng.batch_size (descriptions.map fun desc => "passage: " ++ desc) ≠ [] →
      eng.generate_embeddings fs descriptions false =
        .ok ⟨{ eng with embeddings := some (computedEmbeddings eng encode descriptions) },
             fs.writeAt eng.embeddings_path (.mat (computedEmbeddings eng encode descriptions)),
             [.write eng.embeddings_path (.mat (computedEmbeddings eng encode descriptions))],
             [.computeEmb, .saveEmb]⟩) ∧
    (∀ i, fs.readAt eng.index_path = some (.idx i) →
      eng.create_hnsw_index fs false =
        .ok ⟨{ eng with index := some i }, fs, [], [.loadIdx]⟩) ∧
    (∀ embs, eng.embeddings = some embs →
      fs.pathExists eng.index_path = false →
      eng.create_hnsw_index fs false =
        .ok ⟨{ eng with index := some (builtIndex eng embs) },
             fs.writeAt eng.index_path (.idx (builtIndex eng embs)),
             [.write eng.index_path (.idx (builtIndex eng embs))],
             [.computeIdx, .saveIdx]⟩) ∧
    (∀ r, eng.generate_embeddings fs descriptions false = .ok r →
      ∃ m, r.engine.generate_embeddings r.fs descriptions false =
        .ok ⟨{ r.engine with embeddings := some m }, r.fs, [], [.loadEmb]⟩) ∧
    (∀ r, eng.create_hnsw_index fs false = .ok r →
      ∃ i, r.engine.create_hnsw_index r.fs false =
        .ok ⟨{ r.engine with index := some i }, r.fs, [], [.loadIdx]⟩) := by
  refine ⟨?_, ?_, ?_, ?_, ?_, ?_⟩
  · intro m hread
    exact generate_embeddings_cached eng fs descriptions m hread
  · intro encode hm hex hch
    exact generate_embeddings_miss eng fs descriptions encode hm hch hex
  · intro i hread
    exact create_hnsw_index_cached eng fs i hread
  · intro embs he hex
    exact create_hnsw_index_miss eng fs embs he hex
  · intro r hr
    obtain ⟨hpath, m, hread⟩ := generate_embeddings_ok_fs eng fs descriptions false r hr
    rw [← hpath] at hread
    exact ⟨m, generate_embeddings_cached r.engine r.fs descriptions m hread⟩
  · intro r hr
    obtain ⟨hpath, i, hread⟩ := create_hnsw_index_ok_fs eng fs false r hr
    rw [← hpath] at hread
    exact ⟨i, create_hnsw_index_cached r.engine r.fs i hread⟩

/-- C9 witness: the cached branch of both steps applied to a concrete
file system holding both artifacts. -/
theorem C9_theorem_witness :
    engBase.generate_embeddings
        [("catmat_embeddings.npy", .mat [[1]]),
         ("catmat_hnsw_index.pkl", .idx (builtIndex engBase [[1]]))]
        ["parafuso aço inox M6 20mm"] false =
      .ok ⟨{ engBase with embeddings := some [[1]] },
           [("catmat_embeddings.npy", .mat [[1]]),
            ("catmat_hnsw_index.pkl", .idx (builtIndex engBase [[1]]))],
           [], [.loadEmb]⟩ ∧
    engBase.create_hnsw_index
        [("catmat_embeddings.npy", .mat [[1]]),
         ("catmat_hnsw_index.pkl", .idx (builtIndex engBase [[1]]))] false =
      .ok ⟨{ engBase with index := some (builtIndex engBase [[1]]) },
           [("catmat_embeddings.npy", .mat [[1]]),
            ("catmat_hnsw_index.pkl", .idx (builtIndex engBase [[1]]))],
           [], [.loadIdx]⟩ :=
  ⟨(C9_theorem engBase
      [("catmat_embeddings.npy", .mat [[1]]),
       ("catmat_hnsw_index.pkl", .idx (builtIndex engBase [[1]]))]
      ["parafuso aço inox M6 20mm"]).1 [[1]] rfl,
   (C9_theorem engBase
      [("catmat_embeddings.npy", .mat [[1]]),
       ("catmat_hnsw_index.pkl", .idx (builtIndex engBase [[1]]))]
      ["parafuso aço inox M6 20mm"]).2.2.1 (builtIndex engBase [[1]]) rfl⟩

/-! ## C5 -/

/-- A DataFrame whose only row has a too-short description: every row
is dropped during cleaning. -/
def dfAllShort : DF :=
  { cols := ["Código do Item", "Descrição do Item"]
    rows := [{ codigo := "12345", desc := some "curto", outros := [] }] }

/-- C5, counterexample.  The claim says that when every row is dropped
during cleaning, loading fails with a SchemaError instead of returning
a silent empty result.  Loading a corpus whose single description is
`"curto"` (5 characters, dropped by the length filter) succeeds and
returns an empty corpus: `_clean_data` only logs the before/after count
and never raises on an empty result. -/
theorem C5_counterexample :
    load_data (fun enc => if enc = "utf-8" then .ok dfAllShort
                          else .error .unicodeDecodeError) =
      .ok { cols := ["Código do Item", "Descrição do Item"], rows := [] } := by
  rfl

/-- C5 (amended): cleaning fails only when no description column is
found; whenever a description column exists the loader returns
successfully — even when every row was dropped, in which case the
output is a silent empty corpus. -/
theorem C5_theorem (df : DF) :
    (findDescCol df.cols = none →
      clean_data df = .error "Coluna de descrição não encontrada no CSV") ∧
    (∀ c, findDescCol df.cols = some c → ∃ df', clean_data df = .ok df') := by
  constructor
  · intro h
    unfold clean_data
    rw [h]
  · intro c h
    unfold clean_data
    rw [h]
    exact ⟨_, rfl⟩

/-- C5 witness: the amended theorem applied to the all-dropped
DataFrame. -/
theorem C5_theorem_witness : ∃ df', clean_data dfAllShort = .ok df' :=
  (C5_theorem dfAllShort).2 "Descrição do Item" rfl

/-! ## C7 -/

/-- A row whose description has raw length 10 but trims to a single
character. -/
def rowWS : Row := { codigo := "1", desc := some "a         ", outros := [] }

/-- The DataFrame holding only `rowWS`. -/
def dfWS : DF := { cols := ["Descrição do Item"], rows := [rowWS] }

/-- C7, counterexample.  The claim says every surviving record's
description has length ≥ 10 after trimming/whitespace normalization.
The cleaning code checks `str.len() >= 10` on the raw string with no
trimming: the description `"a         "` (an `a` followed by nine
spaces, raw length 10) survives cleaning, yet its trimmed length is 1,
well below 10. -/
theorem C7_counterexample :
    clean_data dfWS = .ok { cols := ["Descrição do Item"], rows := [rowWS] } ∧
    specTrimmedLength "a         " = 1 ∧ specTrimmedLength "a         " < 10 := by
  refine ⟨rfl, rfl, ?_⟩
  decide

/-- C7 (amended): every record that survives cleaning has a non-null
description whose RAW length is at least 10 characters — no trimming or
whitespace normalization is applied before the length check, so
whitespace-padded short descriptions can survive. -/
theorem C7_theorem (df df' : DF) (h : clean_data df = .ok df')
    (r : Row) (hr : r ∈ df'.rows) :
    ∃ s, r.desc = some s ∧ 10 ≤ s.length := by
  unfold clean_data at h
  split at h
  · exact Except.noConfusion h
  · injection h with h'
    subst h'
    dsimp only at hr
    have h2 := List.of_mem_filter hr
    have h1 := List.mem_of_mem_filter hr
    have h3 := List.of_mem_filter h1
    cases hs : r.desc with
    | none =>
      rw [hs] at h3
      exact Bool.noConfusion h3
    | some s =>
      refine ⟨s, rfl, ?_⟩
      rw [hs] at h2
      simpa using h2

/-- C7 witness: a surviving row of a concrete cleaned corpus has a
non-null description of raw length at least 10. -/
theorem C7_theorem_witness :
    ∃ s, rowWS.desc = some s ∧ 10 ≤ s.length :=
  C7_theorem dfWS { cols := ["Descrição do Item"], rows := [rowWS] } rfl rowWS
    (by simp)

/-! ## C6 -/

/-- First corpus record of the assembler counterexample. -/
def rowA : Row := { codigo := "A", desc := some "parafuso aço inox", outros := [] }

/-- Second (last) corpus record of the assembler counterexample. -/
def rowB : Row := { codigo := "B", desc := some "cabo elétrico 2.5mm", outros := [] }

/-- A two-record corpus. -/
def dfAB : DF := { cols := ["Descrição do Item"], rows := [rowA, rowB] }

/-- An engine whose index holds a single vector while the corpus holds
two records — the stale-index situation, and also exactly what FAISS
padding produces when `top_k` exceeds the index size. -/
def engC6 : EmbeddingsEngine :=
  { engBase with model := some fun _ => [1, 0], index := some idxOne }

/-- C6, counterexample.  The claim says an out-of-corpus-bounds ordinal
is detected and surfaced as an IndexCorruption error, never silently
dereferencing some other record.  Searching the one-vector index with
`top_k = 2` makes FAISS return the padding ordinal `-1`, which is
outside the corpus bounds (negative); `df.iloc[indices[0]]` silently
resolves `-1` to the LAST corpus record (`rowB`), so the assembler
returns a fabricated result with the sentinel score instead of raising
anything. -/
theorem C6_counterexample :
    SearchEngine.search engC6 "parafuso" dfAB 2 =
      .ok [⟨rowA, 0, "parafuso"⟩, ⟨rowB, FLT_MAX, "parafuso"⟩] ∧
    ilocOne dfAB.rows (-1) = .ok rowB := by
  constructor
  · rfl
  · rfl

/-- C6 (amended): the assembler performs pandas positional indexing
with no bounds detection of its own: an ordinal in `[-n, 0)` silently
dereferences the record at position `n + ordinal` (counting from the
end), and only ordinals outside `[-n, n)` raise — a pandas
`IndexError`, not a dedicated IndexCorruption error. -/
theorem C6_theorem (rows : List Row) (i : Int) :
    (-(rows.length : Int) ≤ i ∧ i < 0 →
      ∃ r, ilocOne rows i = .ok r ∧
        rows[((rows.length : Int) + i).toNat]? = some r) ∧
    ((rows.length : Int) ≤ i ∨ i < -(rows.length : Int) →
      ilocOne rows i = .error "IndexError: positional indexers are out-of-bounds") := by
  constructor
  · rintro ⟨h1, h2⟩
    unfold ilocOne
    rw [dif_neg (by omega), dif_pos ⟨h1, h2⟩]
    refine ⟨rows.get ⟨((rows.length : Int) + i).toNat, by omega⟩, rfl, ?_⟩
    rw [List.getElem?_eq_getElem (by omega)]
    rfl
  · intro hout
    unfold ilocOne
    rw [dif_neg (by omega), dif_neg (by omega)]

/-- C6 witness: ordinal `-1` against the two-record corpus silently
resolves to position 1 (the last record). -/
theorem C6_theorem_witness :
    ∃ r, ilocOne dfAB.rows (-1) = .ok r ∧
      dfAB.rows[((dfAB.rows.length : Int) + (-1)).toNat]? = some r :=
  (C6_theorem dfAB.rows (-1)).1 (by decide)

/-! ## C8 -/

/-- C8: per-item failure isolation in the batch loop.  The batch output
has exactly one result group per input item; the group at position `j`
depends only on item `j`; an item whose resolution (or AI
recommendation) raises contributes a single row with status `'Erro'`
and the sentinel similarity score `0.0`; an item whose processing
succeeds contributes only rows with status `'Sucesso'`. -/
theorem C8_theorem (resolve : String → Except String (List SearchResultRow))
    (aiRecommend : String → List SearchResultRow → Except String String)
    (use_ai : Bool) (item_list : List String) :
    (BatchProcessor.process_batch resolve aiRecommend use_ai item_list).length
      = item_list.length ∧
    (∀ j item, item_list[j]? = some item →
      (BatchProcessor.process_batch resolve aiRecommend use_ai item_list)[j]? =
        some (processItem resolve aiRecommend use_ai j item)) ∧
    (∀ j item msg, processItemTry resolve aiRecommend use_ai j item = .error msg →
      processItem resolve aiRecommend use_ai j item = [errorRow item j msg] ∧
      (errorRow item j msg).status = "Erro" ∧
      (errorRow item j msg).score_similaridade = 0) ∧
    (∀ j item rows, processItemTry resolve aiRecommend use_ai j item = .ok rows →
      ∀ b ∈ processItem resolve aiRecommend use_ai j item, b.status = "Sucesso") := by
  refine ⟨?_, ?_, ?_, ?_⟩
  · unfold BatchProcessor.process_batch
    rw [List.length_map, List.enum_length]
  · intro j item hj
    unfold BatchProcessor.process_batch
    rw [List.getElem?_map, List.getElem?_enum, hj]
    rfl
  · intro j item msg herr
    unfold processItem
    rw [herr]
    exact ⟨rfl, rfl, rfl⟩
  · intro j item rows hok b hb
    unfold processItem at hb
    rw [hok] at hb
    unfold processItemTry at hok
    cases hres : resolve (pyStrip item) with
    | error e =>
      rw [hres] at hok
      exact Except.noConfusion hok
    | ok results =>
      rw [hres] at hok
      dsimp only at hok
      cases hrec : (if use_ai then aiRecommend (pyStrip item) results
                    else Except.ok "IA desabilitada") with
      | error e =>
        rw [hrec] at hok
        exact Except.noConfusion hok
      | ok recommendation =>
        rw [hrec] at hok
        injection hok with hok'
        subst hok'
        obtain ⟨p, hp, hpb⟩ := List.mem_map.mp hb
        rw [← hpb]

/-- The batch of five query items used by the batch-isolation witness. -/
def itemsW : List String := ["item1", "item2", "item3", "item4", "item5"]

/-- A resolver that raises an internal error exactly on item 3. -/
def resolveW : String → Except String (List SearchResultRow) :=
  fun s => if s = "item3" then .error "erro interno"
           else .ok [⟨rowA, 1, s⟩]

/-- An AI recommender that always succeeds. -/
def aiW : String → List SearchResultRow → Except String String :=
  fun _ _ => .ok "recomendação"

/-- C8 witness: a batch of 5 items where item 3 raises still yields 5
result groups; group 3 is the single error row with status `'Erro'` and
score `0.0`, and a sibling group holds only `'Sucesso'` rows. -/
theorem C8_theorem_witness :
    (BatchProcessor.process_batch resolveW aiW true itemsW).length = 5 ∧
    processItem resolveW aiW true 2 "item3" = [errorRow "item3" 2 "erro interno"] ∧
    (errorRow "item3" 2 "erro interno").status = "Erro" ∧
    (errorRow "item3" 2 "erro interno").score_similaridade = 0 ∧
    (∀ b ∈ processItem resolveW aiW true 0 "item1", b.status = "Sucesso") := by
  obtain ⟨h1, h2, h3, h4⟩ := C8_theorem resolveW aiW true itemsW
  have he := h3 2 "item3" "erro interno" rfl
  exact ⟨h1, he.1, he.2.1, he.2.2, h4 0 "item1" _ rfl⟩

/-! ## C10 -/

lemma tryEncodings_append_unicode (attempt : String → Except ReadErr DF)
    (pre rest : List String)
    (hpre : ∀ e ∈ pre, attempt e = .error .unicodeDecodeError) :
    tryEncodings attempt (pre ++ rest) =
      (pre ++ (tryEncodings attempt rest).1, (tryEncodings attempt rest).2) := by
  induction pre with
  | nil => simp
  | cons e es ih =>
    have he := hpre e (List.mem_cons_self e es)
    simp only [List.cons_append, tryEncodings, he, List.append_eq]
    rw [ih fun x hx => hpre x (List.mem_cons_of_mem e hx)]

/-- C10: in the encoding-fallback loop over
`['utf-8', 'latin-1', 'cp1252', 'iso-8859-1']`, a successful read stops
the loop, a `UnicodeDecodeError` falls through to the next candidate,
and any other error is re-raised at once: the attempted-encodings trace
stops at the raising candidate (the remaining encodings are never
attempted) and the loader propagates exactly that error. -/
theorem C10_theorem (attempt : String → Except ReadErr DF) :
    encodings = ["utf-8", "latin-1", "cp1252", "iso-8859-1"] ∧
    (∀ enc rest df, attempt enc = .ok df →
      tryEncodings attempt (enc :: rest) = ([enc], .loaded df)) ∧
    (∀ enc rest, attempt enc = .error .unicodeDecodeError →
      tryEncodings attempt (enc :: rest) =
        (enc :: (tryEncodings attempt rest).1, (tryEncodings attempt rest).2)) ∧
    (∀ enc rest msg, attempt enc = .error (.otherError msg) →
      tryEncodings attempt (enc :: rest) = ([enc], .raised msg)) ∧
    (∀ pre e post msg, encodings = pre ++ e :: post →
      (∀ x ∈ pre, attempt x = .error .unicodeDecodeError) →
      attempt e = .error (.otherError msg) →
      (tryEncodings attempt encodings).1 = pre ++ [e] ∧
      load_data attempt = .error msg) := by
  refine ⟨rfl, ?_, ?_, ?_, ?_⟩
  · intro enc rest df h
    simp only [tryEncodings, h]
  · intro enc rest h
    simp only [tryEncodings, h]
  · intro enc rest msg h
    simp only [tryEncodings, h]
  · intro pre e post msg hencs hpre he
    have hhead : tryEncodings attempt (e :: post) = ([e], .raised msg) := by
      simp only [tryEncodings, he]
    have hsplit := tryEncodings_append_unicode attempt pre (e :: post) hpre
    rw [hhead] at hsplit
    constructor
    · rw [hencs, hsplit]
    · unfold load_data
      rw [hencs, hsplit]

/-- A read-attempt function: `utf-8` hits a `UnicodeDecodeError`,
`latin-1` hits a CSV parse error, later encodings would succeed but
must never be attempted. -/
def attemptW : String → Except ReadErr DF :=
  fun enc =>
    if enc = "utf-8" then .error .unicodeDecodeError
    else if enc = "latin-1" then .error (.otherError "ParserError: linha malformada")
    else .ok dfAB

/-- C10 witness: with `attemptW`, the loop attempts exactly
`utf-8` then `latin-1` and the loader propagates the parse error. -/
theorem C10_theorem_witness :
    (tryEncodings attemptW encodings).1 = ["utf-8", "latin-1"] ∧
    load_data attemptW = .error "ParserError: linha malformada" :=
  (C10_theorem attemptW).2.2.2.2 ["utf-8"] "latin-1" ["cp1252", "iso-8859-1"]
    "ParserError: linha malformada" rfl
    (by
      intro x hx
      rw [List.mem_singleton] at hx
      subst hx
      rfl)
    rfl

end Buscamat
